import Mathlib

/-!
Shallow embedding of `src/automation.py` (a Selenium-driven traversal-and-
export automation script) together with proofs about its link-selection,
label-extraction, clicking, export-trigger, download-wait and traversal-loop
logic.

Conventions of the embedding:
* A `WebElement` is modelled by the observable fields the script reads:
  its visible text, its `href` and `data-id` attributes (absent = `none`,
  matching Python's `get_attribute` returning `None`), its tag name, a
  numeric identity standing for CPython's `id(element)`, and a staleness
  flag (a stale element makes every accessor raise
  `StaleElementReferenceException`, which `extract_label` propagates).
* Python truthiness of an optional string (`if href:`) is `truthy`.
* Exceptions are modelled with `Except`: `.error` is a raised exception.
* Real-time waits are modelled on a discrete clock: `time.sleep(1)`
  advances the clock by one tick and the polls themselves take no time.
-/

namespace Automation

/-- Observable state of a Selenium `WebElement` as read by the script. -/
structure Element where
  text : String
  href : Option String
  dataId : Option String
  tagName : String
  uid : Nat
  stale : Bool
deriving DecidableEq, Repr

/-- Python truthiness of `get_attribute`'s result: `None` and `""` are falsy. -/
def truthy : Option String → Bool
  | none => false
  | some s => s ≠ ""

/-- Python's `str.strip()` with no argument: remove leading and trailing
whitespace. (Defined structurally over the character list so that it
evaluates by kernel reduction.) -/
def pyStrip (s : String) : String :=
  ⟨((s.data.dropWhile Char.isWhitespace).reverse.dropWhile Char.isWhitespace).reverse⟩

/-- Python's `str.lower()` on ASCII configuration strings. (Defined
structurally over the character list so that it evaluates by kernel
reduction.) -/
def pyLower (s : String) : String :=
  ⟨s.data.map Char.toLower⟩

/-- Errors raised by the embedded fragments of the script. -/
inductive Err where
  | staleElement
  | downloadTimeout
  | unsupportedLocator (kind : String)
  | interactionFailure
  | exportTimeout
deriving DecidableEq, Repr

/-- Embeds `extract_label` (src/automation.py:225-239): visible trimmed text, else
the `href` attribute, else the `data-id` attribute, else
`f"{tag_name or 'link'}-{id(element)}"`; raises on a stale element. -/
def extract_label (e : Element) : Except Err String :=
  if e.stale then .error .staleElement
  else if pyStrip e.text ≠ "" then .ok (pyStrip e.text)
  else if truthy e.href then .ok (e.href.getD "")
  else if truthy e.dataId then .ok (e.dataId.getD "")
  else .ok ((if e.tagName = "" then "link" else e.tagName) ++ "-" ++ toString e.uid)

/-- The `available` list built by `pick_next_link` (src/automation.py:196-203):
each candidate paired with its label, candidates whose extraction raises
`StaleElementReferenceException` silently dropped. -/
def availableOf (candidates : List Element) : List (Element × String) :=
  candidates.filterMap fun e =>
    match extract_label e with
    | .ok l => some (e, l)
    | .error _ => none

/-- The target-scanning loop of `pick_next_link` (src/automation.py:208-215):
for each target in order, skip it if visited, otherwise search `available`
for a candidate with that exact label; on no match, continue with the next
target (the Python loop falls through); return `None` after the last target. -/
def pickFromTargets (available : List (Element × String)) (visited : List String) :
    List String → Option (Element × String)
  | [] => none
  | t :: ts =>
    if t ∈ visited then pickFromTargets available visited ts
    else
      match available.find? (fun p => p.2 = t) with
      | some p => some p
      | none => pickFromTargets available visited ts

/-- The discovery-order loop of `pick_next_link` (src/automation.py:217-220):
first available pair whose label is not in `visited`. -/
def firstUnvisited (visited : List String) : List (Element × String) → Option (Element × String)
  | [] => none
  | p :: ps => if p.2 ∈ visited then firstUnvisited visited ps else some p

/-- Python truthiness of the optional target list (`if target_texts:`):
`None` and the empty list are falsy. -/
def targetsTruthy : Option (List String) → Bool
  | none => false
  | some [] => false
  | some (_ :: _) => true

/-- Embeds `pick_next_link` (src/automation.py:191-222). -/
def pick_next_link (candidates : List Element) (visited : List String)
    (target_texts : Option (List String)) : Option (Element × String) :=
  let available := availableOf candidates
  if available.isEmpty then none
  else if targetsTruthy target_texts then
    pickFromTargets available visited (target_texts.getD [])
  else
    firstUnvisited visited available

/-- Embeds `normalize_target_texts` (src/automation.py:329-333): `None` on a falsy
input, otherwise strip every entry, drop the blank ones, and return `None`
when nothing survives. -/
def normalize_target_texts (raw : Option (List String)) : Option (List String) :=
  match raw with
  | none => none
  | some [] => none
  | some l =>
    let cleaned := (l.map pyStrip).filter (fun s => s ≠ "")
    if cleaned.isEmpty then none else some cleaned

/-- Observable side effects performed by the script, in program order. -/
inductive Ev where
  | scrollIntoView
  | nativeClick
  | jsClick (label : String)
  | visitAdd (label : String)
  | waitContent (seconds : Int)
  | exportWaitStart
  | exportClick
  | downloadWait
  | navigateBack
deriving DecidableEq, Repr

/-- Embeds `click_element` (src/automation.py:242-248): scroll the element to the
viewport center, try a native `element.click()`, and on any exception from it
fall back to `driver.execute_script("arguments[0].click();", element)`.
The outcomes of the two click attempts are inputs (`.error` = the call
raised); the result is the trace of effects plus the outcome that reaches
the caller. -/
def click_element (nativeResult jsResult : Except Err Unit) (label : String) :
    List Ev × Except Err Unit :=
  match nativeResult with
  | .ok _ => ([.scrollIntoView, .nativeClick], .ok ())
  | .error _ => ([.scrollIntoView, .nativeClick, .jsClick label], jsResult)

/-- Selenium `By` locator strategies, the codomain of `map_by`. -/
inductive By where
  | cssSelector
  | xpath
  | id
  | name
  | className
  | tagName
  | linkText
  | linkTextPartial
deriving DecidableEq, Repr

/-- Embeds `map_by` (src/automation.py:283-299): dictionary from locator-kind string
to Selenium `By` constant; an unlisted key raises `ValueError`. -/
def map_by (by_value : String) : Except Err By :=
  if by_value = "css" then .ok .cssSelector
  else if by_value = "css_selector" then .ok .cssSelector
  else if by_value = "xpath" then .ok .xpath
  else if by_value = "id" then .ok .id
  else if by_value = "name" then .ok .name
  else if by_value = "class" then .ok .className
  else if by_value = "class_name" then .ok .className
  else if by_value = "tag" then .ok .tagName
  else if by_value = "tag_name" then .ok .tagName
  else if by_value = "link_text" then .ok .linkText
  else if by_value = "partial_link_text" then .ok .linkTextPartial
  else .error (.unsupportedLocator by_value)

/-- The `export_button` configuration dictionary: the optional `"by"` key
(default `"css"`) and the mandatory `"value"` key. -/
structure LocatorConfig where
  byKey : Option String
  value : String
deriving DecidableEq, Repr

/-- Embeds `trigger_export` (src/automation.py:251-266): resolve the locator kind
via `map_by` (an unsupported kind raises before any wait), then wait for the
export control to become clickable (`waitResult` is that wait's outcome —
`.error` models `TimeoutException`), then click it directly. -/
def trigger_export (locator_config : LocatorConfig) (waitResult : Except Err Unit)
    (_link_label : String) : List Ev × Except Err Unit :=
  match map_by (pyLower (locator_config.byKey.getD "css")) with
  | .error e => ([], .error e)
  | .ok _ =>
    match waitResult with
    | .error e => ([.exportWaitStart], .error e)
    | .ok _ => ([.exportWaitStart, .exportClick], .ok ())

/-- The polling loop of `wait_for_downloads` on a discrete clock. `markers t`
tells whether any `*.crdownload` file exists at tick `t`; `rem` is the number
of ticks left before the deadline (`(deadline - t).toNat`): the Python loop
condition `time.time() < deadline` holds exactly when `rem > 0`. Each
`time.sleep(1)` advances the clock by one tick. -/
def wfdGo (markers : Nat → Bool) : Nat → Nat → Except Err Unit
  | _, 0 => .error .downloadTimeout
  | t, rem + 1 => if markers t then wfdGo markers (t + 1) rem else .ok ()

/-- Embeds `wait_for_downloads` (src/automation.py:269-280): poll the download
directory once per second starting at tick 0 with deadline
`time.time() + timeout`; return as soon as a poll sees no in-progress marker,
raise `TimeoutException` when the deadline passes first. -/
def wait_for_downloads (markers : Nat → Bool) (timeout : Int) : Except Err Unit :=
  wfdGo markers 0 timeout.toNat

/-- Configuration options consumed by the traversal loop of
`run_automation` (src/automation.py:63-110). -/
structure Config where
  wait_after_link : Int
  back_after_export : Bool
  download_wait : Int
  export_button : LocatorConfig
  link_text_targets : Option (List String)
deriving DecidableEq, Repr

/-- The per-iteration environment: what the page and the driver do during one
cycle of the loop — the candidates the scan discovers, the outcomes of the
two click attempts, the outcome of the export-clickable wait, and the
download-marker timeline observed by `wait_for_downloads`. -/
structure IterEnv where
  candidates : List Element
  clickNative : Except Err Unit
  clickJs : Except Err Unit
  exportWait : Except Err Unit
  markers : Nat → Bool

/-- One iteration of the `while True` body of `run_automation`
(src/automation.py:92-110) after selection, for chosen label `label`:
click (abort on failure), add the label to the visited set, optionally sleep,
trigger the export (abort on failure), optionally wait for downloads (abort
on timeout), optionally navigate back. Returns the effect trace, the updated
visited set, and whether the run aborted with an exception. -/
def run_cycle (cfg : Config) (env : IterEnv) (label : String) (visited : List String) :
    List Ev × List String × Bool :=
  let clicked := click_element env.clickNative env.clickJs label
  match clicked.2 with
  | .error _ => (clicked.1, visited, true)
  | .ok _ =>
    let visited' := label :: visited
    let evs1 := clicked.1 ++ [Ev.visitAdd label] ++
      (if cfg.wait_after_link > 0 then [Ev.waitContent cfg.wait_after_link] else [])
    let exported := trigger_export cfg.export_button env.exportWait label
    match exported.2 with
    | .error _ => (evs1 ++ exported.1, visited', true)
    | .ok _ =>
      if cfg.download_wait > 0 then
        match wait_for_downloads env.markers cfg.download_wait with
        | .error _ => (evs1 ++ exported.1 ++ [Ev.downloadWait], visited', true)
        | .ok _ =>
          (evs1 ++ exported.1 ++ [Ev.downloadWait] ++
            (if cfg.back_after_export then [Ev.navigateBack] else []), visited', false)
      else
        (evs1 ++ exported.1 ++
          (if cfg.back_after_export then [Ev.navigateBack] else []), visited', false)

/-- The `while True` loop of `run_automation` (src/automation.py:82-110):
each iteration re-scans the candidates, selects the next link against the
normalized target list, and runs one cycle; the loop ends when selection
yields `None` or a cycle aborts. `fuel` bounds the number of iterations in
the model; the returned value is the final visited set. -/
def run_automation (cfg : Config) (envs : Nat → IterEnv) :
    Nat → List String → List String
  | 0, visited => visited
  | fuel + 1, visited =>
    let env := envs fuel
    match pick_next_link env.candidates visited (normalize_target_texts cfg.link_text_targets) with
    | none => visited
    | some (_, label) =>
      let step := run_cycle cfg env label visited
      if step.2.2 then step.2.1 else run_automation cfg envs fuel step.2.1

/-! ### Concrete candidates used in the examples -/

/-- A non-stale candidate whose visible text is "B". -/
def elemB : Element := ⟨"B", none, none, "a", 0, false⟩

/-- A non-stale candidate whose visible text is "C". -/
def elemC : Element := ⟨"C", none, none, "a", 1, false⟩

/-- A non-stale candidate whose visible text is "X". -/
def elemX : Element := ⟨"X", none, none, "a", 2, false⟩

/-- A non-stale candidate whose visible text is "Y". -/
def elemY : Element := ⟨"Y", none, none, "a", 3, false⟩

/-- Specification-side description of the label fallback chain, written from
the spec's words (first non-empty value of: trimmed visible text, href
attribute, data-identifier attribute, synthesized tag-plus-token string), to
be compared with the source-derived `extract_label`. -/
def labelChainSpec (e : Element) : String :=
  ((([pyStrip e.text, e.href.getD "", e.dataId.getD "",
      (if e.tagName = "" then "link" else e.tagName) ++ "-" ++ toString e.uid]).find?
    (fun s => s ≠ "")).getD "")

/-- Stages of one cycle that run after the visited-set insertion point. -/
def laterStage : Ev → Bool
  | .waitContent _ => true
  | .exportWaitStart => true
  | .exportClick => true
  | .downloadWait => true
  | .navigateBack => true
  | _ => false

/-- A minimal configuration: no content wait, no download wait, no
back-navigation, css-located export control, no target list. -/
def cfgSimple : Config := ⟨0, false, 0, ⟨some "css", "#export"⟩, none⟩

/-- An iteration environment in which every step succeeds. -/
def envSimple : IterEnv := ⟨[elemX], .ok (), .ok (), .ok (), fun _ => false⟩

/-- The locator-kind strings accepted by `map_by`, in dictionary order. -/
def supportedKinds : List String :=
  ["css", "css_selector", "xpath", "id", "name", "class", "class_name",
   "tag", "tag_name", "link_text", "partial_link_text"]

/-! ### Helper lemmas about the link selector -/

theorem pickFromTargets_mem {av : List (Element × String)} {vis : List String}
    {ts : List String} {p : Element × String} (h : pickFromTargets av vis ts = some p) :
    p ∈ av ∧ p.2 ∈ ts ∧ p.2 ∉ vis := by
  induction ts with
  | nil => simp [pickFromTargets] at h
  | cons t ts ih =>
    rw [pickFromTargets] at h
    by_cases hv : t ∈ vis
    · rw [if_pos hv] at h
      rcases ih h with ⟨h1, h2, h3⟩
      exact ⟨h1, List.mem_cons_of_mem _ h2, h3⟩
    · rw [if_neg hv] at h
      cases hf : av.find? (fun p => p.2 = t) with
      | some q =>
        rw [hf] at h
        cases h
        have hmem : p ∈ av := List.mem_of_find?_eq_some hf
        have hlab : p.2 = t := by simpa using List.find?_some hf
        exact ⟨hmem, by simp [hlab], by simpa [hlab] using hv⟩
      | none =>
        rw [hf] at h
        rcases ih h with ⟨h1, h2, h3⟩
        exact ⟨h1, List.mem_cons_of_mem _ h2, h3⟩

theorem pickFromTargets_eq_none_iff (av : List (Element × String)) (vis : List String)
    (ts : List String) :
    pickFromTargets av vis ts = none ↔ ∀ t ∈ ts, t ∈ vis ∨ ∀ p ∈ av, p.2 ≠ t := by
  induction ts with
  | nil => simp [pickFromTargets]
  | cons t ts ih =>
    rw [pickFromTargets]
    by_cases hv : t ∈ vis
    · simpa [hv] using ih
    · rw [if_neg hv]
      cases hf : av.find? (fun p => p.2 = t) with
      | some q =>
        have hmem : q ∈ av := List.mem_of_find?_eq_some hf
        have hlab : q.2 = t := by simpa using List.find?_some hf
        simp only [hf]
        constructor
        · intro h; cases h
        · intro h
          rcases h t (by simp) with h | h
          · exact absurd h hv
          · exact absurd hlab (h q hmem)
      | none =>
        have hnone : ∀ p ∈ av, p.2 ≠ t := by
          intro p hp
          have := List.find?_eq_none.mp hf p hp
          simpa using this
        simp only [hf]
        rw [ih]
        constructor
        · intro h tgt htgt
          rcases List.mem_cons.mp htgt with rfl | htgt
          · exact Or.inr hnone
          · exact h tgt htgt
        · intro h tgt htgt
          exact h tgt (List.mem_cons_of_mem _ htgt)

theorem firstUnvisited_eq_find? (vis : List String) (l : List (Element × String)) :
    firstUnvisited vis l = l.find? (fun p => decide (p.2 ∉ vis)) := by
  induction l with
  | nil => rfl
  | cons p ps ih =>
    rw [firstUnvisited]
    by_cases h : p.2 ∈ vis
    · rw [if_pos h, ih, List.find?_cons_of_neg]
      simpa using h
    · rw [if_neg h, List.find?_cons_of_pos]
      simpa using h

theorem firstUnvisited_mem {vis : List String} {l : List (Element × String)}
    {p : Element × String} (h : firstUnvisited vis l = some p) : p ∈ l ∧ p.2 ∉ vis := by
  have := firstUnvisited_eq_find? vis l
  rw [this] at h
  exact ⟨List.mem_of_find?_eq_some h, by simpa using List.find?_some h⟩

theorem firstUnvisited_eq_none_iff (vis : List String) (l : List (Element × String)) :
    firstUnvisited vis l = none ↔ ∀ p ∈ l, p.2 ∈ vis := by
  rw [firstUnvisited_eq_find?, List.find?_eq_none]
  constructor
  · intro h p hp
    have := h p hp
    simpa using this
  · intro h p hp
    simpa using h p hp

/-! ### Claims about the link selector -/

/-- Claim C1, counterexample: with Target List ["A","B","C"], candidates
labelled exactly "B" and "C", and an empty visited set, `pick_next_link`
returns the candidate labelled "B" — not "none remain" as the claim states:
the target scan falls through past the unmatched head target "A". -/
theorem pick_next_link_fallthrough_counterexample :
    pick_next_link [elemB, elemC] [] (some ["A", "B", "C"]) = some (elemB, "B") ∧
    pick_next_link [elemB, elemC] [] (some ["A", "B", "C"]) ≠ none := by
  exact ⟨by decide, by decide⟩

/-- Claim C1, amended: when a non-empty Target List is supplied and a target
(in particular the first unvisited one) has no matching candidate, selection
falls through to later targets rather than stopping; it returns "none remain"
exactly when every target is either already visited or matches no candidate
label. -/
theorem pick_next_link_target_fallthrough :
    (∀ (av : List (Element × String)) (vis : List String) (t : String) (ts : List String),
      t ∉ vis → (∀ p ∈ av, p.2 ≠ t) →
      pickFromTargets av vis (t :: ts) = pickFromTargets av vis ts) ∧
    (∀ (cands : List Element) (vis : List String) (t : String) (ts : List String),
      pick_next_link cands vis (some (t :: ts)) = none ↔
        ∀ tgt ∈ t :: ts, tgt ∈ vis ∨ ∀ p ∈ availableOf cands, p.2 ≠ tgt) := by
  constructor
  · intro av vis t ts hv hm
    rw [pickFromTargets, if_neg hv]
    have hf : av.find? (fun p => p.2 = t) = none := by
      rw [List.find?_eq_none]
      intro p hp
      simpa using hm p hp
    rw [hf]
  · intro cands vis t ts
    rw [pick_next_link]
    by_cases he : (availableOf cands).isEmpty
    · have hnil : availableOf cands = [] := by simpa [List.isEmpty_iff] using he
      simp [he, hnil]
    · simp only [he, if_neg, Bool.false_eq_true, if_false]
      have : targetsTruthy (some (t :: ts)) = true := rfl
      rw [this, if_pos rfl]
      exact pickFromTargets_eq_none_iff _ _ _

/-- Claim C1, amended, exercised at concrete inputs: the unmatched unvisited
target "A" is skipped in favour of later targets, and selection reports
"none remain" when the only target is already visited. -/
theorem pick_next_link_target_fallthrough_witness :
    pickFromTargets [(elemB, "B")] [] ["A", "B"] = pickFromTargets [(elemB, "B")] [] ["B"] ∧
    pick_next_link [elemB] ["B"] (some ["B"]) = none :=
  ⟨pick_next_link_target_fallthrough.1 [(elemB, "B")] [] "A" ["B"] (by decide) (by decide),
   (pick_next_link_target_fallthrough.2 [elemB] ["B"] "B" []).mpr (by decide)⟩

/-- Claim C2 (confirmed): a pair returned by `pick_next_link` never carries a
label already in the visited set, and with a non-empty target list the label
is always one of the targets; with no target list the label is likewise never
in the visited set. -/
theorem pick_next_link_sound :
    (∀ (cands : List Element) (vis : List String) (t : String) (ts : List String)
        (e : Element) (l : String),
      pick_next_link cands vis (some (t :: ts)) = some (e, l) →
        l ∉ vis ∧ l ∈ t :: ts) ∧
    (∀ (cands : List Element) (vis : List String) (e : Element) (l : String),
      pick_next_link cands vis none = some (e, l) → l ∉ vis) := by
  constructor
  · intro cands vis t ts e l h
    rw [pick_next_link] at h
    by_cases he : (availableOf cands).isEmpty
    · simp [he] at h
    · simp only [he, Bool.false_eq_true, if_false] at h
      have ht : targetsTruthy (some (t :: ts)) = true := rfl
      rw [ht, if_pos rfl] at h
      rcases pickFromTargets_mem h with ⟨_, h2, h3⟩
      exact ⟨h3, h2⟩
  · intro cands vis e l h
    rw [pick_next_link] at h
    by_cases he : (availableOf cands).isEmpty
    · simp [he] at h
    · simp only [he, Bool.false_eq_true, if_false] at h
      have ht : targetsTruthy none = false := rfl
      rw [ht] at h
      simp only [Bool.false_eq_true, if_false] at h
      exact (firstUnvisited_mem h).2

/-- Claim C2, exercised at concrete inputs: the label "Y" selected under
targets ["A","Y"] with visited {"X"} is unvisited and targeted, and the label
selected with no targets is unvisited. -/
theorem pick_next_link_sound_witness :
    ("Y" ∉ (["X"] : List String) ∧ "Y" ∈ (["A", "Y"] : List String)) ∧
    "Y" ∉ (["X"] : List String) :=
  ⟨pick_next_link_sound.1 [elemX, elemY] ["X"] "A" ["Y"] elemY "Y" (by decide),
   pick_next_link_sound.2 [elemX, elemY] ["X"] elemY "Y" (by decide)⟩

/-- Claim C3 (confirmed): with no target list, `pick_next_link` returns the
first candidate in discovery order whose label is not visited (extraction
failures dropped via `availableOf`), returns "none remain" exactly when every
extractable label is visited, and on candidates labelled "X","Y" with visited
{"X"} it returns the candidate labelled "Y". -/
theorem pick_next_link_discovery :
    (∀ (cands : List Element) (vis : List String),
      pick_next_link cands vis none =
        (availableOf cands).find? (fun p => decide (p.2 ∉ vis))) ∧
    (∀ (cands : List Element) (vis : List String),
      pick_next_link cands vis none = none ↔ ∀ p ∈ availableOf cands, p.2 ∈ vis) ∧
    pick_next_link [elemX, elemY] ["X"] none = some (elemY, "Y") := by
  refine ⟨?_, ?_, by decide⟩
  · intro cands vis
    rw [pick_next_link]
    by_cases he : (availableOf cands).isEmpty
    · have hnil : availableOf cands = [] := by simpa [List.isEmpty_iff] using he
      simp [he, hnil]
    · simp only [he, Bool.false_eq_true, if_false]
      have ht : targetsTruthy none = false := rfl
      rw [ht]
      simp only [Bool.false_eq_true, if_false]
      exact firstUnvisited_eq_find? _ _
  · intro cands vis
    rw [pick_next_link]
    by_cases he : (availableOf cands).isEmpty
    · have hnil : availableOf cands = [] := by simpa [List.isEmpty_iff] using he
      simp [he, hnil]
    · simp only [he, Bool.false_eq_true, if_false]
      have ht : targetsTruthy none = false := rfl
      rw [ht]
      simp only [Bool.false_eq_true, if_false]
      exact firstUnvisited_eq_none_iff _ _

/-- Claim C3, exercised at concrete inputs: discovery-order selection agrees
with the first-unvisited characterization, and returns "none remain" when the
only label is visited. -/
theorem pick_next_link_discovery_witness :
    pick_next_link [elemX] ["X"] none = none :=
  (pick_next_link_discovery.2.1 [elemX] ["X"]).mpr (by decide)

/-! ### The label extractor -/

theorem dash_append_ne_empty (a b : String) : a ++ "-" ++ b ≠ "" := by
  intro h
  have hlen := congrArg String.length h
  rw [String.length_append, String.length_append] at hlen
  have h1 : ("-" : String).length = 1 := rfl
  have h0 : ("" : String).length = 0 := rfl
  omega

theorem extract_label_eq_chain (e : Element) (hs : e.stale = false) :
    extract_label e = .ok (labelChainSpec e) := by
  rw [extract_label, if_neg (by simp [hs])]
  by_cases h1 : pyStrip e.text = ""
  · rw [if_neg (by simpa using h1)]
    cases hh : e.href with
    | some a =>
      by_cases ha : a = ""
      · cases hd : e.dataId with
        | some d =>
          by_cases hdd : d = ""
          · simp [labelChainSpec, truthy, h1, hh, ha, hd, hdd, List.find?, dash_append_ne_empty]
          · simp [labelChainSpec, truthy, h1, hh, ha, hd, hdd, List.find?, dash_append_ne_empty]
        | none => simp [labelChainSpec, truthy, h1, hh, ha, hd, List.find?, dash_append_ne_empty]
      · simp [labelChainSpec, truthy, h1, hh, ha, List.find?]
    | none =>
      cases hd : e.dataId with
      | some d =>
        by_cases hdd : d = ""
        · simp [labelChainSpec, truthy, h1, hh, hd, hdd, List.find?, dash_append_ne_empty]
        · simp [labelChainSpec, truthy, h1, hh, hd, hdd, List.find?, dash_append_ne_empty]
      | none => simp [labelChainSpec, truthy, h1, hh, hd, List.find?, dash_append_ne_empty]
  · rw [if_pos (by simpa using h1)]
    simp [labelChainSpec, h1, List.find?]

theorem labelChainSpec_ne_empty (e : Element) : labelChainSpec e ≠ "" := by
  have hsynth : (if e.tagName = "" then "link" else e.tagName) ++ "-" ++ toString e.uid ≠ "" :=
    dash_append_ne_empty _ _
  rw [labelChainSpec]
  have hmem : ((if e.tagName = "" then "link" else e.tagName) ++ "-" ++ toString e.uid) ∈
      [pyStrip e.text, e.href.getD "", e.dataId.getD "",
       (if e.tagName = "" then "link" else e.tagName) ++ "-" ++ toString e.uid] := by
    simp
  have hsome : (([pyStrip e.text, e.href.getD "", e.dataId.getD "",
      (if e.tagName = "" then "link" else e.tagName) ++ "-" ++ toString e.uid]).find?
      (fun s => s ≠ "")).isSome := by
    rw [List.find?_isSome]
    exact ⟨_, hmem, by simpa using hsynth⟩
  obtain ⟨y, hy⟩ := Option.isSome_iff_exists.mp hsome
  rw [hy]
  have := List.find?_some hy
  simpa using this

/-- Claim C4 (confirmed): for every non-stale element, `extract_label`
returns the first non-empty value of the chain trimmed-text, href,
data-identifier, synthesized tag-plus-token string; the returned label is
always non-empty; an element with empty text and href "/item/7" yields
"/item/7", and one with text "Report Q1" and an href yields "Report Q1". -/
theorem extract_label_fallback_chain :
    (∀ e : Element, e.stale = false → extract_label e = .ok (labelChainSpec e)) ∧
    (∀ (e : Element) (s : String), extract_label e = .ok s → s ≠ "") ∧
    extract_label ⟨"", some "/item/7", none, "a", 5, false⟩ = .ok "/item/7" ∧
    extract_label ⟨"Report Q1", some "/x", none, "a", 6, false⟩ = .ok "Report Q1" := by
  refine ⟨extract_label_eq_chain, ?_, by rfl, by rfl⟩
  intro e s h
  cases hst : e.stale with
  | true => simp [extract_label, hst] at h
  | false =>
    rw [extract_label_eq_chain e hst] at h
    cases h
    exact labelChainSpec_ne_empty e

/-- Claim C4, exercised at concrete inputs: the chain characterization and
the non-emptiness of the extracted label, at the candidate labelled "B". -/
theorem extract_label_fallback_chain_witness :
    extract_label elemB = .ok (labelChainSpec elemB) ∧ "B" ≠ "" :=
  ⟨extract_label_fallback_chain.1 elemB rfl,
   extract_label_fallback_chain.2.1 elemB "B" (by rfl)⟩

/-! ### The click executor and the traversal cycle -/

/-- Claim C6 (confirmed): the click executor scrolls the element to the
viewport center and then attempts the native click; when the native click
raises, the script-driven click is performed on the same element and the
native exception does not propagate — the caller sees an error exactly when
the fallback script click itself fails. -/
theorem click_element_fallback :
    (∀ (n j : Except Err Unit) (lbl : String),
      ∃ rest, (click_element n j lbl).1 = Ev.scrollIntoView :: Ev.nativeClick :: rest) ∧
    (∀ (j : Except Err Unit) (lbl : String),
      click_element (.ok ()) j lbl = ([Ev.scrollIntoView, Ev.nativeClick], .ok ())) ∧
    (∀ (n j : Except Err Unit) (lbl : String) (e : Err), n = .error e →
      (click_element n j lbl).1 = [Ev.scrollIntoView, Ev.nativeClick, Ev.jsClick lbl] ∧
      (click_element n j lbl).2 = j) ∧
    (∀ (n j : Except Err Unit) (lbl : String) (e : Err),
      (click_element n j lbl).2 = .error e → j = .error e) := by
  refine ⟨?_, ?_, ?_, ?_⟩
  · intro n j lbl
    cases n with
    | ok u => exact ⟨[], rfl⟩
    | error e => exact ⟨[Ev.jsClick lbl], rfl⟩
  · intro j lbl
    rfl
  · intro n j lbl e h
    subst h
    exact ⟨rfl, rfl⟩
  · intro n j lbl e h
    cases n with
    | ok u => simp [click_element] at h
    | error e2 => simpa [click_element] using h

/-- Claim C6, exercised at concrete inputs: a failing native click leads to
the script click whose success is what the caller sees, and a propagated
error implies the script click failed. -/
theorem click_element_fallback_witness :
    ((click_element (.error .interactionFailure) (.ok ()) "L").1 =
        [Ev.scrollIntoView, Ev.nativeClick, Ev.jsClick "L"] ∧
      (click_element (.error .interactionFailure) (.ok ()) "L").2 = .ok ()) ∧
    (Except.error Err.interactionFailure : Except Err Unit) = .error .interactionFailure :=
  ⟨click_element_fallback.2.2.1 (.error .interactionFailure) (.ok ()) "L"
      .interactionFailure rfl,
   click_element_fallback.2.2.2 (.error .interactionFailure) (.error .interactionFailure) "L"
      .interactionFailure rfl⟩

theorem trigger_export_events_sub (lc : LocatorConfig) (w : Except Err Unit) (lbl : String) :
    ∀ ev ∈ (trigger_export lc w lbl).1, ev = Ev.exportWaitStart ∨ ev = Ev.exportClick := by
  intro ev hev
  rw [trigger_export.eq_def] at hev
  cases hmb : map_by (pyLower (lc.byKey.getD "css")) with
  | error e => rw [hmb] at hev; simp at hev
  | ok b =>
    rw [hmb] at hev
    cases w with
    | error e => simp at hev; simp [hev]
    | ok u => simpa using hev

theorem click_element_events_sub (n j : Except Err Unit) (lbl : String) :
    ∀ ev ∈ (click_element n j lbl).1,
      ev = Ev.scrollIntoView ∨ ev = Ev.nativeClick ∨ ev = Ev.jsClick lbl := by
  intro ev hev
  cases n with
  | ok u => simp [click_element] at hev; rcases hev with h | h <;> simp [h]
  | error e => simp [click_element] at hev; rcases hev with h | h | h <;> simp [h]

theorem run_cycle_visited_of_click_ok (cfg : Config) (env : IterEnv) (lbl : String)
    (vis : List String) (h : (click_element env.clickNative env.clickJs lbl).2 = .ok ()) :
    (run_cycle cfg env lbl vis).2.1 = lbl :: vis := by
  rw [run_cycle]
  simp only [h]
  cases hexp : (trigger_export cfg.export_button env.exportWait lbl).2 with
  | error e => simp [hexp]
  | ok u =>
    simp only [hexp]
    by_cases hdw : cfg.download_wait > 0
    · simp only [if_pos hdw]
      cases hdl : wait_for_downloads env.markers cfg.download_wait with
      | error e => simp [hdl]
      | ok u2 => simp [hdl]
    · simp [if_neg hdw]

theorem run_cycle_visited_mono (cfg : Config) (env : IterEnv) (lbl : String)
    (vis : List String) : vis ⊆ (run_cycle cfg env lbl vis).2.1 := by
  cases hclick : (click_element env.clickNative env.clickJs lbl).2 with
  | error e =>
    rw [run_cycle]
    simp only [hclick]
    exact List.Subset.refl vis
  | ok u =>
    rw [run_cycle_visited_of_click_ok cfg env lbl vis (by rw [hclick])]
    exact List.subset_cons_self _ _

theorem run_automation_visited_mono (cfg : Config) (envs : Nat → IterEnv) :
    ∀ (fuel : Nat) (vis : List String), vis ⊆ run_automation cfg envs fuel vis := by
  intro fuel
  induction fuel with
  | zero => intro vis; exact List.Subset.refl vis
  | succ fuel ih =>
    intro vis
    rw [run_automation]
    cases hp : pick_next_link (envs fuel).candidates vis
        (normalize_target_texts cfg.link_text_targets) with
    | none => exact List.Subset.refl vis
    | some pr =>
      simp only
      by_cases hab : (run_cycle cfg (envs fuel) pr.2 vis).2.2
      · simp only [if_pos hab]
        exact run_cycle_visited_mono cfg (envs fuel) pr.2 vis
      · simp only [if_neg hab]
        exact (run_cycle_visited_mono cfg (envs fuel) pr.2 vis).trans
          (ih (run_cycle cfg (envs fuel) pr.2 vis).2.1)

/-- Claim C5 (confirmed): in every cycle, as soon as the click step succeeds
the selected label is added to the visited set — before the content wait,
the export trigger and the download wait run, and regardless of whether a
later stage fails — and the visited set only ever grows, both within a cycle
and across the whole traversal loop. -/
theorem run_cycle_visit_placement :
    (∀ (cfg : Config) (env : IterEnv) (lbl : String) (vis : List String),
      (click_element env.clickNative env.clickJs lbl).2 = .ok () →
        (run_cycle cfg env lbl vis).2.1 = lbl :: vis ∧
        ∃ rest, (run_cycle cfg env lbl vis).1 =
            (click_element env.clickNative env.clickJs lbl).1 ++ Ev.visitAdd lbl :: rest ∧
          ∀ ev ∈ rest, laterStage ev = true) ∧
    (∀ (cfg : Config) (env : IterEnv) (lbl : String) (vis : List String),
      vis ⊆ (run_cycle cfg env lbl vis).2.1) ∧
    (∀ (cfg : Config) (envs : Nat → IterEnv) (fuel : Nat) (vis : List String),
      vis ⊆ run_automation cfg envs fuel vis) := by
  refine ⟨?_, run_cycle_visited_mono, fun cfg envs => run_automation_visited_mono cfg envs⟩
  intro cfg env lbl vis h
  refine ⟨run_cycle_visited_of_click_ok cfg env lbl vis h, ?_⟩
  have hlater : ∀ ev ∈ (if cfg.wait_after_link > 0
      then [Ev.waitContent cfg.wait_after_link] else []) ++
      (trigger_export cfg.export_button env.exportWait lbl).1,
      laterStage ev = true := by
    intro ev hev
    rcases List.mem_append.mp hev with hev | hev
    · by_cases hw : cfg.wait_after_link > 0
      · rw [if_pos hw] at hev
        simp at hev
        simp [hev, laterStage]
      · rw [if_neg hw] at hev
        simp at hev
    · rcases trigger_export_events_sub cfg.export_button env.exportWait lbl ev hev with
        h1 | h1 <;> simp [h1, laterStage]
  rw [run_cycle]
  simp only [h]
  cases hexp : (trigger_export cfg.export_button env.exportWait lbl).2 with
  | error e =>
    simp only [hexp]
    refine ⟨(if cfg.wait_after_link > 0 then [Ev.waitContent cfg.wait_after_link] else []) ++
      (trigger_export cfg.export_button env.exportWait lbl).1, by simp, hlater⟩
  | ok u =>
    simp only [hexp]
    by_cases hdw : cfg.download_wait > 0
    · simp only [if_pos hdw]
      cases hdl : wait_for_downloads env.markers cfg.download_wait with
      | error e =>
        simp only [hdl]
        refine ⟨(if cfg.wait_after_link > 0 then [Ev.waitContent cfg.wait_after_link] else []) ++
          (trigger_export cfg.export_button env.exportWait lbl).1 ++ [Ev.downloadWait],
          by simp, ?_⟩
        intro ev hev
        rcases List.mem_append.mp hev with hev | hev
        · exact hlater ev hev
        · simp at hev; simp [hev, laterStage]
      | ok u2 =>
        simp only [hdl]
        refine ⟨(if cfg.wait_after_link > 0 then [Ev.waitContent cfg.wait_after_link] else []) ++
          (trigger_export cfg.export_button env.exportWait lbl).1 ++ [Ev.downloadWait] ++
          (if cfg.back_after_export then [Ev.navigateBack] else []), by simp, ?_⟩
        intro ev hev
        rcases List.mem_append.mp hev with hev | hev
        · rcases List.mem_append.mp hev with hev | hev
          · exact hlater ev hev
          · simp at hev; simp [hev, laterStage]
        · by_cases hb : cfg.back_after_export
          · rw [if_pos hb] at hev
            simp at hev
            simp [hev, laterStage]
          · rw [if_neg hb] at hev
            simp at hev
    · simp only [if_neg hdw]
      refine ⟨(if cfg.wait_after_link > 0 then [Ev.waitContent cfg.wait_after_link] else []) ++
        (trigger_export cfg.export_button env.exportWait lbl).1 ++
        (if cfg.back_after_export then [Ev.navigateBack] else []), by simp, ?_⟩
      intro ev hev
      rcases List.mem_append.mp hev with hev | hev
      · exact hlater ev hev
      · by_cases hb : cfg.back_after_export
        · rw [if_pos hb] at hev
          simp at hev
          simp [hev, laterStage]
        · rw [if_neg hb] at hev
          simp at hev

/-- Claim C5, exercised at concrete inputs: with a successful click, the
visited set of the cycle is the selected label consed onto the old one, and
the visit-add event sits right after the click events. -/
theorem run_cycle_visit_placement_witness :
    (run_cycle cfgSimple envSimple "L" []).2.1 = "L" :: [] ∧
    ∃ rest, (run_cycle cfgSimple envSimple "L" []).1 =
        (click_element envSimple.clickNative envSimple.clickJs "L").1 ++
          Ev.visitAdd "L" :: rest ∧
      ∀ ev ∈ rest, laterStage ev = true :=
  run_cycle_visit_placement.1 cfgSimple envSimple "L" [] (by rfl)

/-! ### The download waiter -/

theorem wfdGo_ok_iff (m : Nat → Bool) :
    ∀ (rem t : Nat), wfdGo m t rem = .ok () ↔ ∃ k, k < rem ∧ m (t + k) = false := by
  intro rem
  induction rem with
  | zero => intro t; simp [wfdGo]
  | succ rem ih =>
    intro t
    rw [wfdGo]
    by_cases hm : m t
    · rw [if_pos hm, ih (t + 1)]
      constructor
      · rintro ⟨k, hk, hmk⟩
        refine ⟨k + 1, by omega, ?_⟩
        rw [show t + (k + 1) = t + 1 + k by omega]
        exact hmk
      · rintro ⟨k, hk, hmk⟩
        cases k with
        | zero =>
          simp at hmk
          rw [hmk] at hm
          cases hm
        | succ k =>
          refine ⟨k, by omega, ?_⟩
          rw [show t + 1 + k = t + (k + 1) by omega]
          exact hmk
    · rw [if_neg hm]
      constructor
      · intro _
        exact ⟨0, Nat.succ_pos rem, by simpa using hm⟩
      · intro _
        rfl

theorem wfdGo_cases (m : Nat → Bool) :
    ∀ (rem t : Nat), wfdGo m t rem = .ok () ∨ wfdGo m t rem = .error .downloadTimeout := by
  intro rem
  induction rem with
  | zero => intro t; exact Or.inr rfl
  | succ rem ih =>
    intro t
    rw [wfdGo]
    by_cases hm : m t
    · rw [if_pos hm]
      exact ih (t + 1)
    · rw [if_neg hm]
      exact Or.inl rfl

theorem wfdGo_error_iff (m : Nat → Bool) (rem t : Nat) :
    wfdGo m t rem = .error .downloadTimeout ↔ ∀ k, k < rem → m (t + k) = true := by
  constructor
  · intro h k hk
    by_contra hmk
    have hok : wfdGo m t rem = .ok () :=
      (wfdGo_ok_iff m rem t).mpr ⟨k, hk, by simpa using hmk⟩
    rw [hok] at h
    cases h
  · intro h
    rcases wfdGo_cases m rem t with hc | hc
    · rcases (wfdGo_ok_iff m rem t).mp hc with ⟨k, hk, hmk⟩
      rw [h k hk] at hmk
      cases hmk
    · exact hc

/-- Claim C7 (confirmed): the download waiter polls once per second and
returns successfully exactly when some poll strictly before the deadline sees
no marker (in particular at the very first poll), and raises the timeout
error exactly when every poll before the deadline sees a marker; a marker
removed after 2 seconds beats a 5-second timeout, a persistent marker makes
a 2-second timeout fail. -/
theorem wait_for_downloads_semantics :
    (∀ (m : Nat → Bool) (timeout : Int),
      wait_for_downloads m timeout = .ok () ↔
        ∃ t : Nat, (t : Int) < timeout ∧ m t = false) ∧
    (∀ (m : Nat → Bool) (timeout : Int),
      wait_for_downloads m timeout = .error .downloadTimeout ↔
        ∀ t : Nat, (t : Int) < timeout → m t = true) ∧
    (∀ (m : Nat → Bool) (timeout : Int),
      0 < timeout → m 0 = false → wait_for_downloads m timeout = .ok ()) ∧
    wait_for_downloads (fun t => decide (t < 2)) 5 = .ok () ∧
    wait_for_downloads (fun _ => true) 2 = .error .downloadTimeout := by
  have hok : ∀ (m : Nat → Bool) (timeout : Int),
      wait_for_downloads m timeout = .ok () ↔
        ∃ t : Nat, (t : Int) < timeout ∧ m t = false := by
    intro m timeout
    rw [wait_for_downloads, wfdGo_ok_iff]
    constructor
    · rintro ⟨k, hk, hmk⟩
      exact ⟨k, by omega, by simpa using hmk⟩
    · rintro ⟨t, ht, hmt⟩
      exact ⟨t, by omega, by simpa using hmt⟩
  refine ⟨hok, ?_, ?_, by rfl, by rfl⟩
  · intro m timeout
    rw [wait_for_downloads, wfdGo_error_iff]
    constructor
    · intro h t ht
      simpa using h t (by omega)
    · intro h k hk
      simpa using h k (by omega)
  · intro m timeout ht hm
    exact (hok m timeout).mpr ⟨0, ht, hm⟩

/-- Claim C7, exercised at concrete inputs: an empty directory at the first
poll returns success under a positive timeout, and the timeout
characterization holds for a persistent marker. -/
theorem wait_for_downloads_semantics_witness :
    wait_for_downloads (fun _ => false) 3 = .ok () ∧
    wait_for_downloads (fun _ => true) 1 = .error .downloadTimeout :=
  ⟨wait_for_downloads_semantics.2.2.1 (fun _ => false) 3 (by norm_num) rfl,
   (wait_for_downloads_semantics.2.1 (fun _ => true) 1).mpr (fun _ _ => rfl)⟩

theorem run_cycle_no_download_wait (cfg : Config) (env : IterEnv) (lbl : String)
    (vis : List String) (hdw : cfg.download_wait ≤ 0) :
    Ev.downloadWait ∉ (run_cycle cfg env lbl vis).1 := by
  intro hmem
  have hnot : ¬ cfg.download_wait > 0 := by omega
  rw [run_cycle] at hmem
  cases hclick : (click_element env.clickNative env.clickJs lbl).2 with
  | error e =>
    rw [hclick] at hmem
    simp only at hmem
    rcases click_element_events_sub env.clickNative env.clickJs lbl _ hmem with h | h | h <;>
      cases h
  | ok u =>
    rw [hclick] at hmem
    simp only at hmem
    cases hexp : (trigger_export cfg.export_button env.exportWait lbl).2 with
    | error e =>
      rw [hexp] at hmem
      rcases List.mem_append.mp hmem with h | h
      · rcases List.mem_append.mp h with h2 | h2
        · rcases List.mem_append.mp h2 with h3 | h3
          · rcases click_element_events_sub env.clickNative env.clickJs lbl _ h3 with
              h1 | h1 | h1 <;> simp at h1
          · simp at h3
        · by_cases hw : cfg.wait_after_link > 0
          · rw [if_pos hw] at h2
            simp at h2
          · rw [if_neg hw] at h2
            simp at h2
      · rcases trigger_export_events_sub cfg.export_button env.exportWait lbl _ h with
          h1 | h1 <;> simp at h1
    | ok u2 =>
      rw [hexp] at hmem
      rw [if_neg hnot] at hmem
      rcases List.mem_append.mp hmem with h | h
      · rcases List.mem_append.mp h with h2 | h2
        · rcases List.mem_append.mp h2 with h3 | h3
          · rcases List.mem_append.mp h3 with h4 | h4
            · rcases click_element_events_sub env.clickNative env.clickJs lbl _ h4 with
                h1 | h1 | h1 <;> simp at h1
            · simp at h4
          · by_cases hw : cfg.wait_after_link > 0
            · rw [if_pos hw] at h3
              simp at h3
            · rw [if_neg hw] at h3
              simp at h3
        · rcases trigger_export_events_sub cfg.export_button env.exportWait lbl _ h2 with
            h1 | h1 <;> simp at h1
      · by_cases hb : cfg.back_after_export
        · rw [if_pos hb] at h
          simp at h
        · rw [if_neg hb] at h
          simp at h

/-- Claim C10 (confirmed): a non-positive timeout makes the download waiter
raise the timeout error at once — the loop body, and with it the success
check, is never entered, even over a directory with no markers — and the
orchestrator only avoids this because it skips the call entirely whenever the
configured download wait is not positive (no download-wait step appears in
such a cycle). -/
theorem wait_for_downloads_nonpositive :
    (∀ (m : Nat → Bool) (timeout : Int), timeout ≤ 0 →
      wait_for_downloads m timeout = .error .downloadTimeout) ∧
    wait_for_downloads (fun _ => false) 0 = .error .downloadTimeout ∧
    (∀ (cfg : Config) (env : IterEnv) (lbl : String) (vis : List String),
      cfg.download_wait ≤ 0 → Ev.downloadWait ∉ (run_cycle cfg env lbl vis).1) := by
  refine ⟨?_, by rfl, run_cycle_no_download_wait⟩
  intro m timeout ht
  rw [wait_for_downloads]
  have h0 : timeout.toNat = 0 := by omega
  rw [h0]
  rfl

/-- Claim C10, exercised at concrete inputs: a negative timeout raises even
with no markers present, and a cycle configured with a zero download wait
performs no download-wait step. -/
theorem wait_for_downloads_nonpositive_witness :
    wait_for_downloads (fun _ => false) (-1) = .error .downloadTimeout ∧
    Ev.downloadWait ∉ (run_cycle cfgSimple envSimple "L" []).1 :=
  ⟨wait_for_downloads_nonpositive.1 (fun _ => false) (-1) (by norm_num),
   wait_for_downloads_nonpositive.2.2 cfgSimple envSimple "L" [] (by decide)⟩

/-! ### The export-trigger locator mapping -/

/-- Claim C8 (confirmed): `map_by` succeeds exactly on the supported
locator-kind strings — which together cover precisely the eight Selenium
strategies css selector, xpath, id, name, class name, tag name, link text
and partial link text — and any other kind string raises the
unsupported-locator error; inside `trigger_export` that error is raised
before any wait or click event is emitted. -/
theorem map_by_supported :
    (∀ s : String, (∃ b, map_by s = .ok b) ↔ s ∈ supportedKinds) ∧
    (map_by "css" = .ok .cssSelector ∧ map_by "css_selector" = .ok .cssSelector ∧
      map_by "xpath" = .ok .xpath ∧ map_by "id" = .ok .id ∧ map_by "name" = .ok .name ∧
      map_by "class" = .ok .className ∧ map_by "class_name" = .ok .className ∧
      map_by "tag" = .ok .tagName ∧ map_by "tag_name" = .ok .tagName ∧
      map_by "link_text" = .ok .linkText ∧
      map_by "partial_link_text" = .ok .linkTextPartial) ∧
    (∀ s : String, s ∉ supportedKinds → map_by s = .error (.unsupportedLocator s)) ∧
    (∀ (lc : LocatorConfig) (w : Except Err Unit) (lbl : String) (e : Err),
      map_by (pyLower (lc.byKey.getD "css")) = .error e →
        trigger_export lc w lbl = ([], .error e)) := by
  refine ⟨?_, ⟨rfl, rfl, rfl, rfl, rfl, rfl, rfl, rfl, rfl, rfl, rfl⟩, ?_, ?_⟩
  · intro s
    constructor
    · rintro ⟨b, hb⟩
      unfold map_by at hb
      by_cases h1 : s = "css"
      · subst h1; decide
      · rw [if_neg h1] at hb
        by_cases h2 : s = "css_selector"
        · subst h2; decide
        · rw [if_neg h2] at hb
          by_cases h3 : s = "xpath"
          · subst h3; decide
          · rw [if_neg h3] at hb
            by_cases h4 : s = "id"
            · subst h4; decide
            · rw [if_neg h4] at hb
              by_cases h5 : s = "name"
              · subst h5; decide
              · rw [if_neg h5] at hb
                by_cases h6 : s = "class"
                · subst h6; decide
                · rw [if_neg h6] at hb
                  by_cases h7 : s = "class_name"
                  · subst h7; decide
                  · rw [if_neg h7] at hb
                    by_cases h8 : s = "tag"
                    · subst h8; decide
                    · rw [if_neg h8] at hb
                      by_cases h9 : s = "tag_name"
                      · subst h9; decide
                      · rw [if_neg h9] at hb
                        by_cases h10 : s = "link_text"
                        · subst h10; decide
                        · rw [if_neg h10] at hb
                          by_cases h11 : s = "partial_link_text"
                          · subst h11; decide
                          · rw [if_neg h11] at hb
                            cases hb
    · intro hs
      fin_cases hs <;> exact ⟨_, rfl⟩
  · intro s hs
    unfold map_by
    by_cases h1 : s = "css"
    · exact absurd (h1 ▸ (by decide : ("css" : String) ∈ supportedKinds)) hs
    · rw [if_neg h1]
      by_cases h2 : s = "css_selector"
      · exact absurd (h2 ▸ (by decide : ("css_selector" : String) ∈ supportedKinds)) hs
      · rw [if_neg h2]
        by_cases h3 : s = "xpath"
        · exact absurd (h3 ▸ (by decide : ("xpath" : String) ∈ supportedKinds)) hs
        · rw [if_neg h3]
          by_cases h4 : s = "id"
          · exact absurd (h4 ▸ (by decide : ("id" : String) ∈ supportedKinds)) hs
          · rw [if_neg h4]
            by_cases h5 : s = "name"
            · exact absurd (h5 ▸ (by decide : ("name" : String) ∈ supportedKinds)) hs
            · rw [if_neg h5]
              by_cases h6 : s = "class"
              · exact absurd (h6 ▸ (by decide : ("class" : String) ∈ supportedKinds)) hs
              · rw [if_neg h6]
                by_cases h7 : s = "class_name"
                · exact absurd (h7 ▸ (by decide :
                    ("class_name" : String) ∈ supportedKinds)) hs
                · rw [if_neg h7]
                  by_cases h8 : s = "tag"
                  · exact absurd (h8 ▸ (by decide : ("tag" : String) ∈ supportedKinds)) hs
                  · rw [if_neg h8]
                    by_cases h9 : s = "tag_name"
                    · exact absurd (h9 ▸ (by decide :
                        ("tag_name" : String) ∈ supportedKinds)) hs
                    · rw [if_neg h9]
                      by_cases h10 : s = "link_text"
                      · exact absurd (h10 ▸ (by decide :
                          ("link_text" : String) ∈ supportedKinds)) hs
                      · rw [if_neg h10]
                        by_cases h11 : s = "partial_link_text"
                        · exact absurd (h11 ▸ (by decide :
                            ("partial_link_text" : String) ∈ supportedKinds)) hs
                        · rw [if_neg h11]
  · intro lc w lbl e h
    rw [trigger_export.eq_def, h]

/-- Claim C8, exercised at concrete inputs: a supported kind maps
successfully, an unknown kind maps to the unsupported-locator error, and an
export trigger configured with that kind fails before emitting any event. -/
theorem map_by_supported_witness :
    (∃ b, map_by "xpath" = .ok b) ∧
    map_by "foo" = .error (.unsupportedLocator "foo") ∧
    trigger_export ⟨some "foo", "v"⟩ (.ok ()) "L" = ([], .error (.unsupportedLocator "foo")) :=
  ⟨(map_by_supported.1 "xpath").mpr (by decide),
   map_by_supported.2.2.1 "foo" (by decide),
   map_by_supported.2.2.2 ⟨some "foo", "v"⟩ (.ok ()) "L" (.unsupportedLocator "foo") (by rfl)⟩

/-! ### Target-list normalization -/

/-- Claim C9 (confirmed): target-list normalization strips every entry and
drops the blank ones; a list whose entries are all blank (or an empty or
absent list) normalizes to `None`, and selection against such a normalized
list is exactly the discovery-order policy. -/
theorem normalize_blank_targets :
    (∀ (l m : List String), normalize_target_texts (some l) = some m →
      m = (l.map pyStrip).filter (fun s => s ≠ "") ∧ m ≠ []) ∧
    (∀ l : List String, (∀ s ∈ l, pyStrip s = "") →
      normalize_target_texts (some l) = none) ∧
    (normalize_target_texts none = none ∧ normalize_target_texts (some []) = none) ∧
    (∀ (cands : List Element) (vis : List String) (raw : Option (List String)),
      normalize_target_texts raw = none →
        pick_next_link cands vis (normalize_target_texts raw) =
          firstUnvisited vis (availableOf cands)) := by
  refine ⟨?_, ?_, ⟨rfl, rfl⟩, ?_⟩
  · intro l m h
    cases l with
    | nil => simp [normalize_target_texts] at h
    | cons x xs =>
      have h2 : (if (((x :: xs).map pyStrip).filter (fun s => s ≠ "")).isEmpty then
          (none : Option (List String))
        else some (((x :: xs).map pyStrip).filter (fun s => s ≠ ""))) = some m := h
      by_cases he : (((x :: xs).map pyStrip).filter (fun s => s ≠ "")).isEmpty
      · rw [if_pos he] at h2
        cases h2
      · rw [if_neg he] at h2
        cases h2
        refine ⟨rfl, ?_⟩
        intro hnil
        rw [hnil] at he
        exact he rfl
  · intro l hb
    cases l with
    | nil => rfl
    | cons x xs =>
      have hclean : ((x :: xs).map pyStrip).filter (fun s => s ≠ "") = [] := by
        rw [List.filter_eq_nil_iff]
        intro a ha
        rcases List.mem_map.mp ha with ⟨y, hy, rfl⟩
        simp [hb y hy]
      show (if (((x :: xs).map pyStrip).filter (fun s => s ≠ "")).isEmpty then
          (none : Option (List String))
        else some (((x :: xs).map pyStrip).filter (fun s => s ≠ ""))) = none
      rw [hclean]
      rfl
  · intro cands vis raw h
    rw [h, pick_next_link]
    by_cases he : (availableOf cands).isEmpty
    · have hnil : availableOf cands = [] := by simpa [List.isEmpty_iff] using he
      simp [he, hnil, firstUnvisited]
    · simp only [he, Bool.false_eq_true, if_false]
      have ht : targetsTruthy none = false := rfl
      rw [ht]
      simp

/-- Claim C9, exercised at concrete inputs: a list of blank entries
normalizes to `None`, and selection under it is discovery-order selection. -/
theorem normalize_blank_targets_witness :
    normalize_target_texts (some ["  ", ""]) = none ∧
    pick_next_link [elemX] ["X"] (normalize_target_texts (some [" "])) =
      firstUnvisited ["X"] (availableOf [elemX]) :=
  ⟨normalize_blank_targets.2.1 ["  ", ""] (by decide),
   normalize_blank_targets.2.2.2 [elemX] ["X"] (some [" "]) (by rfl)⟩

end Automation
